import Mathlib

/-!
Shallow embedding of the CoolLibs/Audio playback engine (`src/Player.cpp`) and
of the capture ring buffer (`src/InputStream.hpp`).

Conventions of the embedding:
* C++ `float`/`double` values are modelled as exact rationals (`ℚ`);
* `int64_t` is modelled as `ℤ` (the program never comes close to overflow for
  the quantities involved: sample counts and frame indices);
* C++ `%` on signed integers truncates towards zero, which is `Int.tmod`;
* `static_cast<int64_t>(double)` truncates towards zero, which is `ratTrunc`;
* the RtAudio stream plumbing (open/close/start) has no observable effect on
  the state modelled here and is elided; the audio callback is modelled as a
  pure function from the player state and a block size to the produced block
  of interleaved output samples together with the updated player state.
-/

namespace CoolAudio

/-- The audio data record {interleaved samples, channel count, sample rate}
consumed by the player (`AudioData` in the sources). -/
structure AudioData where
  samples : List ℚ
  channels_count : ℕ
  sample_rate : ℕ
deriving DecidableEq

/-- The playback properties of the player: gain, mute flag, loop flag. -/
structure PlayerProperties where
  volume : ℚ
  is_muted : Bool
  does_loop : Bool
deriving DecidableEq

/-- The state of `Audio::Player` that the modelled operations touch:
`_data`, `_properties`, `_is_playing` and `_next_frame_to_play`. -/
structure Player where
  data : AudioData
  properties : PlayerProperties
  is_playing : Bool
  next_frame_to_play : ℤ
deriving DecidableEq

/-- Embeds `Player::has_audio_data`: `!_data.samples.empty()`. -/
def has_audio_data (p : Player) : Bool :=
  !p.data.samples.isEmpty

/-- The fixed number of output channels of the stream
(`output_channels_count` in `Player.cpp`). -/
def output_channels_count : ℕ := 2

/-- The static helper `mod` of `Player.cpp`: `res = a % b; if (res < 0) res += b;`.
C++ `%` truncates towards zero, hence `Int.tmod`. -/
def mod (a b : ℤ) : ℤ :=
  let res := Int.tmod a b
  if res < 0 then res + b else res

/-- Embeds `Player::sample_unaltered_volume(frame_index, channel_index)`:
returns 0 without data; computes the flat position
`frame_index * channels_count + channel_index % channels_count`; returns 0
when the position is out of range and looping is disabled; otherwise reads
the sample at the position wrapped by `mod` (always in range, `getD` never
falls back to its default). -/
def sample_unaltered_volume (p : Player) (frame_index channel_index : ℤ) : ℚ :=
  if has_audio_data p = false then 0
  else
    let sample_index : ℤ :=
      frame_index * (p.data.channels_count : ℤ)
        + Int.tmod channel_index (p.data.channels_count : ℤ)
    if (sample_index < 0 ∨ sample_index ≥ (p.data.samples.length : ℤ))
        ∧ p.properties.does_loop = false then 0
    else p.data.samples.getD (mod sample_index (p.data.samples.length : ℤ)).toNat 0

/-- Embeds `Player::sample(frame_index, channel_index)`: 0 when muted, otherwise
`volume * sample_unaltered_volume(frame_index, channel_index)`. -/
def sample (p : Player) (frame_index channel_index : ℤ) : ℚ :=
  if p.properties.is_muted then 0
  else p.properties.volume * sample_unaltered_volume p frame_index channel_index

/-- The channel-less overload `Player::sample(frame_index)`: accumulates
`sample(frame_index, i)` for `i` in `[0, channels_count)` and divides by
`channels_count`. -/
def sample_mono (p : Player) (frame_index : ℤ) : ℚ :=
  ((List.range p.data.channels_count).foldl
      (fun (res : ℚ) (i : ℕ) => res + sample p frame_index (i : ℤ)) 0)
    / (p.data.channels_count : ℚ)

/-- The channel-less overload `Player::sample_unaltered_volume(frame_index)`:
accumulates `sample_unaltered_volume(frame_index, i)` for `i` in
`[0, channels_count)` and divides by `channels_count`. -/
def sample_unaltered_volume_mono (p : Player) (frame_index : ℤ) : ℚ :=
  ((List.range p.data.channels_count).foldl
      (fun (res : ℚ) (i : ℕ) => res + sample_unaltered_volume p frame_index (i : ℤ)) 0)
    / (p.data.channels_count : ℚ)

/-- Truncation towards zero, the semantics of `static_cast<int64_t>` applied
to a finite `double`. -/
def ratTrunc (q : ℚ) : ℤ :=
  if 0 ≤ q then ⌊q⌋ else ⌈q⌉

/-- Embeds `Player::set_time(time_in_seconds)`: recomputes `_next_frame_to_play` as
`static_cast<int64_t>(sample_rate * time_in_seconds)` and returns whether the
cursor changed. -/
def set_time (p : Player) (time_in_seconds : ℚ) : Player × Bool :=
  let next_frame_to_play : ℤ :=
    ratTrunc ((p.data.sample_rate : ℚ) * time_in_seconds)
  let has_changed : Bool := next_frame_to_play != p.next_frame_to_play
  ({ p with next_frame_to_play := next_frame_to_play }, has_changed)

/-- Embeds `Player::get_time()`: `_next_frame_to_play / sample_rate`, and 0 when
`sample_rate == 0`. -/
def get_time (p : Player) : ℚ :=
  if p.data.sample_rate = 0 then 0
  else (p.next_frame_to_play : ℚ) / (p.data.sample_rate : ℚ)

/-- Embeds `Player::set_audio_data(data)`: remembers `get_time()`, swaps the data,
then calls `set_time` with the remembered time so that the cursor is
recomputed for the new sample rate. (Stream close/reopen elided.) -/
def set_audio_data (p : Player) (d : AudioData) : Player :=
  let current_time := get_time p
  let swapped : Player := { p with data := d }
  (set_time swapped current_time).1

/-- Number of frames held by an audio data record:
`samples.size() / channels_count`. -/
def frames_count (d : AudioData) : ℕ :=
  d.samples.length / d.channels_count

/-- Duration in seconds of the loaded data: frame count over sample rate. -/
def duration (p : Player) : ℚ :=
  (frames_count p.data : ℚ) / (p.data.sample_rate : ℚ)

/-- The output `audio_callback` of `Player.cpp`, modelled as a pure function:
for each of the `frames_count` frames it produces one interleaved frame of
`output_channels_count` samples — `is_playing ? sample(cursor, ch) : 0` — and
advances the cursor by one iff `is_playing`; it returns the produced block
together with the updated player state. -/
def audio_callback : Player → ℕ → List (List ℚ) × Player
  | p, 0 => ([], p)
  | p, n + 1 =>
    let frame : List ℚ :=
      (List.range output_channels_count).map
        (fun (ch : ℕ) => if p.is_playing then sample p p.next_frame_to_play (ch : ℤ) else 0)
    let p1 : Player :=
      if p.is_playing then { p with next_frame_to_play := p.next_frame_to_play + 1 } else p
    let rest := audio_callback p1 n
    (frame :: rest.1, rest.2)

/-- Modelled from the spec: `InputStream::shrink_samples_to_fit` lives in
`InputStream.cpp`, which is not among the sources (only `InputStream.hpp`
is). The push path in the spec "trim[s] the front of the sequence until its size
is ≤ retained_length", i.e. it drops `size - retained_length` samples from
the front. -/
def shrink_samples_to_fit (samples : List ℚ) (nb_of_retained_samples : ℕ) : List ℚ :=
  samples.drop (samples.length - nb_of_retained_samples)

/-- Modelled from the spec: one invocation of the input hardware callback
(`audio_input_callback`, in the missing `InputStream.cpp`) appends the block
of incoming mono samples and then trims the front to the retained length. -/
def push_block (samples : List ℚ) (nb_of_retained_samples : ℕ) (block : List ℚ) : List ℚ :=
  shrink_samples_to_fit (samples ++ block) nb_of_retained_samples

/-- A whole capture session: starting from an empty buffer with the retained
length already set, push the given blocks one after the other, each push
followed by its trim. -/
def capture_run (nb_of_retained_samples : ℕ) (blocks : List (List ℚ)) : List ℚ :=
  blocks.foldl (fun s b => push_block s nb_of_retained_samples b) []

/-- A looping player over 3 samples declared as 2-channel data: the sample
count is not a whole number of frames. -/
def loopPlayer : Player :=
  { data := { samples := [1, 2, 3], channels_count := 2, sample_rate := 44100 }
    properties := { volume := 1, is_muted := false, does_loop := true }
    is_playing := true
    next_frame_to_play := 0 }

/-- A looping player over two whole frames of 2-channel data. -/
def wholeFramesLoopPlayer : Player :=
  { data := { samples := [10, 20, 30, 40], channels_count := 2, sample_rate := 44100 }
    properties := { volume := 1, is_muted := false, does_loop := true }
    is_playing := true
    next_frame_to_play := 0 }

/-- A non-looping player over 3 samples declared as 2-channel data. -/
def nonLoopPlayer : Player :=
  { data := { samples := [1, 2, 3], channels_count := 2, sample_rate := 44100 }
    properties := { volume := 1, is_muted := false, does_loop := false }
    is_playing := true
    next_frame_to_play := 0 }

/-- A non-looping player over two whole frames of mono data. -/
def wholeFramesNonLoopPlayer : Player :=
  { data := { samples := [5, 6], channels_count := 1, sample_rate := 44100 }
    properties := { volume := 1, is_muted := false, does_loop := false }
    is_playing := true
    next_frame_to_play := 0 }

/-- A player with data loaded at 2 Hz, cursor at the start. -/
def rate2Player : Player :=
  { data := { samples := [0, 0], channels_count := 1, sample_rate := 2 }
    properties := { volume := 1, is_muted := false, does_loop := false }
    is_playing := false
    next_frame_to_play := 0 }

/-- A player with data loaded at 1 Hz, cursor at the start. -/
def rate1Player : Player :=
  { data := { samples := [0, 0], channels_count := 1, sample_rate := 1 }
    properties := { volume := 1, is_muted := false, does_loop := false }
    is_playing := false
    next_frame_to_play := 0 }

/-- Replacement audio data at 4 Hz. -/
def rate4Data : AudioData :=
  { samples := [0, 0, 0, 0], channels_count := 1, sample_rate := 4 }

/-- Replacement audio data at 3 Hz. -/
def rate3Data : AudioData :=
  { samples := [0, 0, 0], channels_count := 1, sample_rate := 3 }

/-- A player with 8 mono frames at 2 Hz (duration 4 s). -/
def roundtripPlayer : Player :=
  { data := { samples := [0, 0, 0, 0, 0, 0, 0, 0], channels_count := 1, sample_rate := 2 }
    properties := { volume := 1, is_muted := false, does_loop := false }
    is_playing := false
    next_frame_to_play := 0 }

/-- A player with no audio data loaded (`sample_rate == 0`). -/
def noDataPlayer : Player :=
  { data := { samples := [], channels_count := 0, sample_rate := 0 }
    properties := { volume := 1, is_muted := false, does_loop := false }
    is_playing := false
    next_frame_to_play := 3 }

/-! Section: Helper lemmas -/

theorem neg_tmod (a b : ℤ) : Int.tmod (-a) b = -Int.tmod a b := by
  rw [Int.tmod_def, Int.tmod_def, Int.neg_tdiv]
  ring

theorem mod_def_ite (a b : ℤ) :
    mod a b = if Int.tmod a b < 0 then Int.tmod a b + b else Int.tmod a b := rfl

/-- The `mod` helper agrees with the mathematical (Euclidean) modulo for a
positive modulus. -/
theorem mod_eq_emod (a : ℤ) {b : ℤ} (hb : 0 < b) : mod a b = a % b := by
  have htm : Int.tmod a b % b = a % b := by
    conv_rhs => rw [← Int.tmod_add_tdiv a b]
    rw [Int.add_mul_emod_self_left]
  have hlt : Int.tmod a b < b := Int.tmod_lt_of_pos a hb
  have hgt : -b < Int.tmod a b := by
    have h1 : Int.tmod (-a) b < b := Int.tmod_lt_of_pos (-a) hb
    rw [neg_tmod] at h1
    omega
  rw [mod_def_ite]
  split
  · rename_i h
    have h2 : (Int.tmod a b + b) % b = Int.tmod a b % b := by
      rw [show Int.tmod a b + b = Int.tmod a b + b * 1 by ring, Int.add_mul_emod_self_left]
    rw [← htm, ← h2, Int.emod_eq_of_lt (by omega) (by omega)]
  · rename_i h
    rw [← htm, Int.emod_eq_of_lt (by omega) (by omega)]

theorem has_audio_data_length_pos {p : Player} (h : has_audio_data p = true) :
    0 < p.data.samples.length := by
  simp [has_audio_data] at h
  exact List.length_pos.mpr h

theorem frames_mul_channels {d : AudioData}
    (hdvd : d.channels_count ∣ d.samples.length) :
    (frames_count d : ℤ) * (d.channels_count : ℤ) = (d.samples.length : ℤ) := by
  unfold frames_count
  exact_mod_cast Nat.div_mul_cancel hdvd

/-! Section: C2: looping periodicity -/

/-- Claim C2, counterexample: on non-empty looping data whose sample count is
not a whole number of frames (3 samples declared as 2 channels,
`frame_count = 3 / 2 = 1`), shifting the frame index by `1 * frame_count`
changes the value returned by `sample_unaltered_volume`, so the claimed
periodicity fails as stated. -/
theorem looping_periodicity_counterexample :
    has_audio_data loopPlayer = true
    ∧ loopPlayer.properties.does_loop = true
    ∧ sample_unaltered_volume loopPlayer (0 + 1 * (frames_count loopPlayer.data : ℤ)) 0
      ≠ sample_unaltered_volume loopPlayer 0 0 := by decide

/-- Claim C2 (amended): whenever audio data is non-empty, `does_loop` is true
and the sample count is a whole number of frames (`channels_count` divides
`samples.size()`), then for every frame index `f`, channel index `ch ≥ 0` and
integer `k`, `sample_unaltered_volume (f + k * frame_count) ch`
equals `sample_unaltered_volume f ch`, where
`frame_count = samples.size() / channels_count`. -/
theorem looping_periodicity_of_whole_frames (p : Player) (f k ch : ℤ)
    (hne : has_audio_data p = true)
    (hloop : p.properties.does_loop = true)
    (hch : 0 ≤ ch)
    (hdvd : p.data.channels_count ∣ p.data.samples.length) :
    sample_unaltered_volume p (f + k * (frames_count p.data : ℤ)) ch
      = sample_unaltered_volume p f ch := by
  have hL : 0 < p.data.samples.length := has_audio_data_length_pos hne
  have hLZ : (0:ℤ) < (p.data.samples.length : ℤ) := by exact_mod_cast hL
  have hFC := frames_mul_channels hdvd
  simp only [sample_unaltered_volume, hne, hloop]
  norm_num
  congr 2
  rw [mod_eq_emod _ hLZ, mod_eq_emod _ hLZ]
  have hidx : (f + k * (frames_count p.data : ℤ)) * (p.data.channels_count : ℤ)
        + Int.tmod ch (p.data.channels_count : ℤ)
      = (f * (p.data.channels_count : ℤ) + Int.tmod ch (p.data.channels_count : ℤ))
        + (p.data.samples.length : ℤ) * k := by
    rw [← hFC]
    ring
  rw [hidx, Int.add_mul_emod_self_left]

/-- Witness for the amended claim C2 at a concrete looping player with two
whole frames of 2-channel data, `f = 1`, `k = -2`, `ch = 3`. -/
theorem looping_periodicity_of_whole_frames_witness :
    (has_audio_data wholeFramesLoopPlayer = true
      ∧ wholeFramesLoopPlayer.properties.does_loop = true
      ∧ (0:ℤ) ≤ 3
      ∧ wholeFramesLoopPlayer.data.channels_count ∣ wholeFramesLoopPlayer.data.samples.length)
    ∧ sample_unaltered_volume wholeFramesLoopPlayer
        (1 + (-2) * (frames_count wholeFramesLoopPlayer.data : ℤ)) 3
      = sample_unaltered_volume wholeFramesLoopPlayer 1 3 :=
  ⟨⟨by decide, by decide, by decide, by decide⟩,
    looping_periodicity_of_whole_frames wholeFramesLoopPlayer 1 (-2) 3
      (by decide) (by decide) (by decide) (by decide)⟩

/-! Section: C3: non-looping silence -/

/-- Claim C3, counterexample: on non-empty non-looping data whose sample
count is not a whole number of frames (3 samples declared as 2 channels,
`frame_count = 1`), the frame index `f = 1 ≥ frame_count` still reads a
stored sample (the flat position `1 * 2 + 0 = 2` is in range), so the
claimed silence fails as stated. -/
theorem non_looping_silence_counterexample :
    has_audio_data nonLoopPlayer = true
    ∧ nonLoopPlayer.properties.does_loop = false
    ∧ (frames_count nonLoopPlayer.data : ℤ) ≤ 1
    ∧ sample_unaltered_volume nonLoopPlayer 1 0 ≠ 0 := by decide

/-- Claim C3 (amended): whenever audio data is non-empty, `does_loop` is
false and the sample count is a whole number of frames (`channels_count`
divides `samples.size()`), then for every channel index `ch ≥ 0` and every
frame index `f` with `f < 0` or `f ≥ frame_count`,
`sample_unaltered_volume f ch` returns 0. -/
theorem non_looping_silence_of_whole_frames (p : Player) (f ch : ℤ)
    (hne : has_audio_data p = true)
    (hloop : p.properties.does_loop = false)
    (hch : 0 ≤ ch)
    (hdvd : p.data.channels_count ∣ p.data.samples.length)
    (hf : f < 0 ∨ (frames_count p.data : ℤ) ≤ f) :
    sample_unaltered_volume p f ch = 0 := by
  have hL : 0 < p.data.samples.length := has_audio_data_length_pos hne
  have hC : 0 < p.data.channels_count := by
    rcases Nat.eq_zero_or_pos p.data.channels_count with h0 | h
    · rw [h0] at hdvd
      rw [Nat.zero_dvd.mp hdvd] at hL
      omega
    · exact h
  have hCZ : (0:ℤ) < (p.data.channels_count : ℤ) := by exact_mod_cast hC
  have hr0 : 0 ≤ Int.tmod ch (p.data.channels_count : ℤ) := Int.tmod_nonneg _ hch
  have hrC : Int.tmod ch (p.data.channels_count : ℤ) < (p.data.channels_count : ℤ) :=
    Int.tmod_lt_of_pos ch hCZ
  have hFC := frames_mul_channels hdvd
  have hout : f * (p.data.channels_count : ℤ) + Int.tmod ch (p.data.channels_count : ℤ) < 0
      ∨ (p.data.samples.length : ℤ)
        ≤ f * (p.data.channels_count : ℤ) + Int.tmod ch (p.data.channels_count : ℤ) := by
    rcases hf with hf | hf
    · left
      have h1 : f * (p.data.channels_count : ℤ) ≤ (-1) * (p.data.channels_count : ℤ) :=
        mul_le_mul_of_nonneg_right (by omega) (le_of_lt hCZ)
      linarith
    · right
      have h1 : (frames_count p.data : ℤ) * (p.data.channels_count : ℤ)
          ≤ f * (p.data.channels_count : ℤ) :=
        mul_le_mul_of_nonneg_right hf (le_of_lt hCZ)
      rw [hFC] at h1
      linarith
  simp only [sample_unaltered_volume, hne, hloop]
  norm_num
  intro h1 h2
  rcases hout with h | h
  · omega
  · omega

/-- Witness for the amended claim C3 at a concrete non-looping player with
two whole mono frames, at the out-of-range frame index `f = -3`. -/
theorem non_looping_silence_of_whole_frames_witness :
    (has_audio_data wholeFramesNonLoopPlayer = true
      ∧ wholeFramesNonLoopPlayer.properties.does_loop = false
      ∧ (0:ℤ) ≤ 0
      ∧ wholeFramesNonLoopPlayer.data.channels_count ∣ wholeFramesNonLoopPlayer.data.samples.length
      ∧ ((-3 : ℤ) < 0 ∨ (frames_count wholeFramesNonLoopPlayer.data : ℤ) ≤ -3))
    ∧ sample_unaltered_volume wholeFramesNonLoopPlayer (-3) 0 = 0 :=
  ⟨⟨by decide, by decide, by decide, by decide, by decide⟩,
    non_looping_silence_of_whole_frames wholeFramesNonLoopPlayer (-3) 0
      (by decide) (by decide) (by decide) (by decide) (by decide)⟩

/-! Section: C4: set_time semantics -/

/-- Claim C4, counterexample: at sample rate 2 and `t = 3/4` the product is
`3/2`; the code truncates it to cursor 1 while `round(t * r) = 2`, so
`set_time` does not round as claimed. -/
theorem set_time_round_counterexample :
    (set_time rate2Player (3/4)).1.next_frame_to_play
      ≠ round ((3/4 : ℚ) * (rate2Player.data.sample_rate : ℚ)) := by
  norm_num [set_time, ratTrunc, rate2Player, round_eq]

/-- Claim C4 (amended): for every time value `t` and sample rate `r`,
`set_time t` sets the playback cursor to the truncation towards zero of
`r * t` (the semantics of `static_cast<int64_t>`, not rounding to nearest),
and returns true iff the new cursor value differs from the cursor value
before the call. -/
theorem set_time_truncates (p : Player) (t : ℚ) :
    (set_time p t).1.next_frame_to_play = ratTrunc ((p.data.sample_rate : ℚ) * t)
    ∧ ((set_time p t).2 = true
        ↔ (set_time p t).1.next_frame_to_play ≠ p.next_frame_to_play) := by
  refine ⟨rfl, ?_⟩
  simp [set_time, bne_iff_ne]

/-! Section: C7: mute/volume relation -/

/-- Claim C7: for every frame index and channel index, `sample` is 0 when
muted and `volume * sample_unaltered_volume` otherwise, for every volume
value (no clamping anywhere). -/
theorem sample_mute_volume_relation (p : Player) (f c : ℤ) :
    sample p f c = if p.properties.is_muted = true then 0
      else p.properties.volume * sample_unaltered_volume p f c := rfl

/-! Section: C10: set_time with no data loaded -/

/-- Claim C10: when no audio data is loaded (`sample_rate == 0`),
`set_time t` sets the playback cursor to 0 for every `t`, and `get_time`
afterwards returns 0. -/
theorem set_time_no_data (p : Player) (t : ℚ) (h : p.data.sample_rate = 0) :
    (set_time p t).1.next_frame_to_play = 0
    ∧ get_time (set_time p t).1 = 0 := by
  constructor
  · simp [set_time, ratTrunc, h]
  · simp [get_time, set_time, h]

/-- Witness for claim C10 at a concrete data-less player and `t = 7`. -/
theorem set_time_no_data_witness :
    noDataPlayer.data.sample_rate = 0
    ∧ ((set_time noDataPlayer 7).1.next_frame_to_play = 0
        ∧ get_time (set_time noDataPlayer 7).1 = 0) :=
  ⟨rfl, set_time_no_data noDataPlayer 7 rfl⟩

/-- After `set_time t` with a positive sample rate and `t ≥ 0`, `get_time`
returns the largest whole-frame time not exceeding `t`, hence a value in
`(t - 1/sample_rate, t]` that is also non-negative. -/
theorem get_time_set_time_bounds (p : Player) (t : ℚ)
    (hr : 0 < p.data.sample_rate) (ht : 0 ≤ t) :
    0 ≤ get_time (set_time p t).1
    ∧ get_time (set_time p t).1 ≤ t
    ∧ t - get_time (set_time p t).1 < 1 / (p.data.sample_rate : ℚ) := by
  have hrQ : (0:ℚ) < (p.data.sample_rate : ℚ) := by exact_mod_cast hr
  have hq : 0 ≤ (p.data.sample_rate : ℚ) * t := mul_nonneg (le_of_lt hrQ) ht
  have hrne : p.data.sample_rate ≠ 0 := Nat.pos_iff_ne_zero.mp hr
  have hget : get_time (set_time p t).1
      = (⌊(p.data.sample_rate : ℚ) * t⌋ : ℚ) / (p.data.sample_rate : ℚ) := by
    simp [get_time, set_time, ratTrunc, hq, hrne]
  rw [hget]
  have h1 := Int.floor_le ((p.data.sample_rate : ℚ) * t)
  have h2 := Int.lt_floor_add_one ((p.data.sample_rate : ℚ) * t)
  refine ⟨?_, ?_, ?_⟩
  · apply div_nonneg _ (le_of_lt hrQ)
    exact_mod_cast Int.floor_nonneg.mpr hq
  · rw [div_le_iff₀ hrQ]
    linarith
  · rw [sub_lt_iff_lt_add, div_add_div_same, lt_div_iff₀ hrQ]
    push_cast at h2
    linarith

/-! Section: C6: seek/time round-trip -/

/-- Claim C6: with audio data loaded at a positive sample rate, for any
`t ∈ [0, duration)`, `set_time t` followed by `get_time` returns `t` within
one sample period `1/sample_rate`. -/
theorem set_time_get_time_roundtrip (p : Player) (t : ℚ)
    (hr : 0 < p.data.sample_rate) (ht0 : 0 ≤ t) (htd : t < duration p) :
    |get_time (set_time p t).1 - t| ≤ 1 / (p.data.sample_rate : ℚ) := by
  obtain ⟨h0, h1, h2⟩ := get_time_set_time_bounds p t hr ht0
  rw [abs_of_nonpos (by linarith)]
  linarith

/-- Witness for claim C6 at a concrete player with 8 mono frames at 2 Hz
(duration 4 s) and `t = 3/4`. -/
theorem set_time_get_time_roundtrip_witness :
    (0 < roundtripPlayer.data.sample_rate
      ∧ (0:ℚ) ≤ 3/4
      ∧ (3/4 : ℚ) < duration roundtripPlayer)
    ∧ |get_time (set_time roundtripPlayer (3/4)).1 - 3/4|
        ≤ 1 / (roundtripPlayer.data.sample_rate : ℚ) :=
  ⟨⟨by decide, by norm_num, by norm_num [duration, frames_count, roundtripPlayer]⟩,
    set_time_get_time_roundtrip roundtripPlayer (3/4) (by decide) (by norm_num)
      (by norm_num [duration, frames_count, roundtripPlayer])⟩

/-! Section: C5: set_audio_data preserves playback time -/

/-- Claim C5, counterexample: load data at 1 Hz, seek to `T = 1/2` (the
cursor truncates to 0, i.e. time 0), then load data at 4 Hz: `get_time`
returns 0, which is `1/2` away from `T` — more than one frame (`1/4`) of
the sample rate of the new data, so the claimed bound fails as stated. -/
theorem set_audio_data_time_counterexample :
    0 < rate1Player.data.sample_rate
    ∧ 0 < rate4Data.sample_rate
    ∧ 1 / (rate4Data.sample_rate : ℚ)
      < |get_time (set_audio_data (set_time rate1Player (1/2)).1 rate4Data) - 1/2| := by
  refine ⟨by decide, by decide, ?_⟩
  have habs : |(1:ℚ)/2| = 1/2 := abs_of_pos (by norm_num)
  norm_num [get_time, set_audio_data, set_time, ratTrunc, rate1Player, rate4Data, habs]

/-- Claim C5 (amended): with data A loaded at a positive sample rate, after
seeking to a time `t ≥ 0` and then loading data B with a positive sample
rate, `get_time` is within one sample period of A plus one sample period of
B of `t` (seeking already truncates `t` to a whole frame of A, and the swap
then truncates the resulting time to a whole frame of B). -/
theorem set_audio_data_preserves_time_within_two_periods (p : Player) (b : AudioData) (t : ℚ)
    (hA : 0 < p.data.sample_rate) (hB : 0 < b.sample_rate) (ht : 0 ≤ t) :
    |get_time (set_audio_data (set_time p t).1 b) - t|
      ≤ 1 / (p.data.sample_rate : ℚ) + 1 / (b.sample_rate : ℚ) := by
  obtain ⟨hA0, hA1, hA2⟩ := get_time_set_time_bounds p t hA ht
  have hswap : set_audio_data (set_time p t).1 b
      = (set_time { (set_time p t).1 with data := b } (get_time (set_time p t).1)).1 := rfl
  obtain ⟨hB0, hB1, hB2⟩ :=
    get_time_set_time_bounds { (set_time p t).1 with data := b }
      (get_time (set_time p t).1) hB hA0
  rw [hswap, abs_of_nonpos (by linarith)]
  linarith

/-- Witness for the amended claim C5: data at 2 Hz, seek to `t = 1/2`, then
swap in data at 3 Hz. -/
theorem set_audio_data_preserves_time_witness :
    (0 < rate2Player.data.sample_rate
      ∧ 0 < rate3Data.sample_rate
      ∧ (0:ℚ) ≤ 1/2)
    ∧ |get_time (set_audio_data (set_time rate2Player (1/2)).1 rate3Data) - 1/2|
        ≤ 1 / (rate2Player.data.sample_rate : ℚ) + 1 / (rate3Data.sample_rate : ℚ) :=
  ⟨⟨by decide, by decide, by norm_num⟩,
    set_audio_data_preserves_time_within_two_periods rate2Player rate3Data (1/2)
      (by decide) (by decide) (by norm_num)⟩

theorem foldl_add_map (g : ℕ → ℚ) (l : List ℕ) :
    ∀ init : ℚ, l.foldl (fun res i => res + g i) init = init + (l.map g).sum := by
  induction l with
  | nil =>
    intro init
    simp
  | cons x xs ih =>
    intro init
    simp only [List.foldl_cons, List.map_cons, List.sum_cons]
    rw [ih (init + g x)]
    ring

theorem list_range_map_sum (g : ℕ → ℚ) (n : ℕ) :
    ((List.range n).map g).sum = ∑ i ∈ Finset.range n, g i := by
  induction n with
  | zero => simp
  | succ n ih =>
    rw [List.range_succ, List.map_append, List.sum_append, Finset.sum_range_succ, ih]
    simp

/-! Section: C8: mono mixdown -/

/-- Claim C8: the channel-less overloads of `sample` and
`sample_unaltered_volume` return the arithmetic mean — the sum divided by the
channel count — of the per-channel values over channels `[0, channels_count)`,
for every player state (any loaded data, or none). -/
theorem sample_mono_is_mean (p : Player) (f : ℤ) :
    sample_mono p f
      = (∑ c ∈ Finset.range p.data.channels_count, sample p f (c : ℤ))
        / (p.data.channels_count : ℚ)
    ∧ sample_unaltered_volume_mono p f
      = (∑ c ∈ Finset.range p.data.channels_count, sample_unaltered_volume p f (c : ℤ))
        / (p.data.channels_count : ℚ) := by
  constructor
  · unfold sample_mono
    rw [foldl_add_map (fun i => sample p f (i : ℤ)) (List.range p.data.channels_count) 0,
      zero_add, list_range_map_sum]
  · unfold sample_unaltered_volume_mono
    rw [foldl_add_map (fun i => sample_unaltered_volume p f (i : ℤ))
        (List.range p.data.channels_count) 0,
      zero_add, list_range_map_sum]

/-! Section: C9: capture ring-buffer invariant -/

theorem shrink_append (r : ℕ) (t b : List ℚ) :
    shrink_samples_to_fit (shrink_samples_to_fit t r ++ b) r
      = shrink_samples_to_fit (t ++ b) r := by
  unfold shrink_samples_to_fit
  simp only [List.length_append, List.length_drop]
  rw [List.drop_append_eq_append_drop, List.drop_append_eq_append_drop, List.drop_drop,
    List.length_drop]
  congr 1
  · congr 1
    omega
  · congr 1
    omega

/-- Claim C9: starting from an empty capture buffer with the retained length
set to `nb`, after any sequence of pushed blocks — each push followed by its
trim — the buffer holds at most `nb` samples, and its contents are exactly
the chronologically last `min nb total` pushed samples in order (where
`total` is the number of samples pushed overall). -/
theorem capture_ring_buffer_invariant (nb : ℕ) (blocks : List (List ℚ)) :
    (capture_run nb blocks).length ≤ nb
    ∧ capture_run nb blocks = blocks.flatten.drop (blocks.flatten.length - nb)
    ∧ (capture_run nb blocks).length = min nb blocks.flatten.length := by
  have key : ∀ (bs : List (List ℚ)) (t : List ℚ),
      bs.foldl (fun s b => push_block s nb b) (shrink_samples_to_fit t nb)
        = shrink_samples_to_fit (t ++ bs.flatten) nb := by
    intro bs
    induction bs with
    | nil =>
      intro t
      simp
    | cons b bs ih =>
      intro t
      rw [List.foldl_cons]
      have hpush : push_block (shrink_samples_to_fit t nb) nb b
          = shrink_samples_to_fit (t ++ b) nb := shrink_append nb t b
      rw [hpush, ih (t ++ b), List.flatten_cons, List.append_assoc]
  have hrun : capture_run nb blocks = shrink_samples_to_fit blocks.flatten nb := by
    have h0 : ([] : List ℚ) = shrink_samples_to_fit [] nb := by
      simp [shrink_samples_to_fit]
    unfold capture_run
    rw [h0, key blocks []]
    simp
  refine ⟨?_, ?_, ?_⟩
  · rw [hrun]
    unfold shrink_samples_to_fit
    rw [List.length_drop]
    omega
  · rw [hrun]
    rfl
  · rw [hrun]
    unfold shrink_samples_to_fit
    rw [List.length_drop]
    omega

/-- Function `sample` reads only `_properties` and `_data`: it does not depend on the
cursor nor on the playing flag. -/
theorem sample_fields (p : Player) (b : Bool) (x f c : ℤ) :
    sample (Player.mk p.data p.properties b x) f c = sample p f c := rfl

/-! Section: C1: output callback contract -/

/-- Claim C1: for every block of `n` frames delivered to the output
callback, each frame `f` and output channel `ch` receives
`sample(cursor + f, ch)` when `is_playing` and 0 otherwise, and the final
state advances the cursor by exactly `n` iff `is_playing` (by 0 otherwise),
leaving everything else unchanged; in particular a paused block is all
silence with an unchanged cursor. -/
theorem audio_callback_contract (p : Player) (n : ℕ) :
    (audio_callback p n).1 =
      (List.range n).map (fun (f : ℕ) =>
        (List.range output_channels_count).map (fun (ch : ℕ) =>
          if p.is_playing then sample p (p.next_frame_to_play + (f : ℤ)) (ch : ℤ) else 0))
    ∧ (audio_callback p n).2 =
      { p with next_frame_to_play :=
          p.next_frame_to_play + (if p.is_playing then (n : ℤ) else 0) } := by
  induction n generalizing p with
  | zero =>
    refine ⟨by simp [audio_callback], ?_⟩
    simp [audio_callback]
  | succ n ih =>
    have hstep : audio_callback p (n + 1)
        = (((List.range output_channels_count).map
              (fun (ch : ℕ) => if p.is_playing then sample p p.next_frame_to_play (ch : ℤ) else 0))
            :: (audio_callback (if p.is_playing
                  then { p with next_frame_to_play := p.next_frame_to_play + 1 } else p) n).1,
           (audio_callback (if p.is_playing
                  then { p with next_frame_to_play := p.next_frame_to_play + 1 } else p) n).2) := rfl
    cases hp : p.is_playing with
    | true =>
      obtain ⟨ih1, ih2⟩ := ih { p with next_frame_to_play := p.next_frame_to_play + 1 }
      simp only [hp, ite_true] at ih1 ih2
      constructor
      · rw [hstep]
        simp only [hp, ite_true]
        rw [ih1, List.range_succ_eq_map, List.map_cons, List.map_map]
        congr 1
        · simp
        · simp only [sample_fields]
          apply List.map_congr_left
          intro a ha
          simp only [Function.comp_apply]
          congr 1
          funext ch
          congr 1
          push_cast
          ring
      · rw [hstep]
        simp only [hp, ite_true]
        rw [ih2]
        congr 1
        push_cast
        ring
    | false =>
      obtain ⟨ih1, ih2⟩ := ih p
      constructor
      · rw [hstep]
        simp [hp, ih1, List.replicate_succ]
      · rw [hstep]
        simp [hp, ih2]

end CoolAudio
